import Mathlib

/-!
Verification of the per-fingerprint daily deduplication gate implemented in
`src/ui/src/Sentry.js` (the variant defining `getDailyKey`, `getErrorCount`,
`incrementErrorCount`, `shouldReportError`, `getErrorFingerprint` and
`dedupeEventProcessor` over per-fingerprint keys).

The JavaScript is shallowly embedded: `localStorage` becomes an explicit
association list threaded through the functions, the ambient `new Date()`
becomes an explicit `JSDate` argument, and JavaScript numbers (which can be
`NaN` here, via `parseInt`) become the type `JSNum`.
-/

namespace SentryDedup

/-- JavaScript `\s` character class (the whitespace set of the regex
`/\s+/g` used by `getErrorFingerprint`). -/
def isJsWs (c : Char) : Bool :=
  c.toNat == 0x09 || c.toNat == 0x0A || c.toNat == 0x0B || c.toNat == 0x0C ||
  c.toNat == 0x0D || c.toNat == 0x20 || c.toNat == 0xA0 || c.toNat == 0x1680 ||
  (0x2000 ≤ c.toNat && c.toNat ≤ 0x200A) || c.toNat == 0x2028 || c.toNat == 0x2029 ||
  c.toNat == 0x202F || c.toNat == 0x205F || c.toNat == 0x3000 || c.toNat == 0xFEFF

/-- ASCII decimal digit test, as used by `parseInt(data, 10)`. -/
def isDigitChar (c : Char) : Bool :=
  48 ≤ c.toNat && c.toNat ≤ 57

/-- The ASCII digit character for a digit value (values `≥ 9` all give `'9'`;
only `d < 10` is ever used). -/
def digitChar (d : Nat) : Char :=
  match d with
  | 0 => '0' | 1 => '1' | 2 => '2' | 3 => '3' | 4 => '4'
  | 5 => '5' | 6 => '6' | 7 => '7' | 8 => '8' | _ => '9'

/-- Most-significant-first decimal digits of `n`, with explicit fuel so the
recursion is structural (any fuel `> n` is enough). -/
def natToDigitsAux : Nat → Nat → List Char
  | 0, _ => []
  | fuel+1, n =>
    if n < 10 then [digitChar n]
    else natToDigitsAux fuel (n / 10) ++ [digitChar (n % 10)]

/-- Decimal string of a natural number, as JavaScript `String(n)` produces
for a nonnegative integer. -/
def natRepr (n : Nat) : String :=
  ⟨natToDigitsAux (n + 1) n⟩

/-- Value of a most-significant-first list of ASCII digit characters. -/
def digitsVal (cs : List Char) : Nat :=
  cs.foldl (fun a c => a * 10 + (c.toNat - 48)) 0

/-- A JavaScript number as it occurs in this code: an integer or `NaN`
(produced by `parseInt` on a non-numeric string and propagated by
arithmetic). -/
inductive JSNum where
  | nan
  | num (i : Int)
deriving DecidableEq

/-- JavaScript `+` on numbers (`NaN` propagates). -/
def jsAdd : JSNum → JSNum → JSNum
  | .num a, .num b => .num (a + b)
  | _, _ => .nan

/-- JavaScript `-` on numbers (`NaN` propagates). -/
def jsSub : JSNum → JSNum → JSNum
  | .num a, .num b => .num (a - b)
  | _, _ => .nan

/-- JavaScript `%` on numbers: remainder truncated toward zero, `NaN` on a
`NaN` operand or a zero divisor. -/
def jsMod : JSNum → JSNum → JSNum
  | .num a, .num b => if b = 0 then .nan else .num (Int.tmod a b)
  | _, _ => .nan

/-- JavaScript `===` on numbers: `NaN` is equal to nothing. -/
def jsEq : JSNum → JSNum → Bool
  | .num a, .num b => a == b
  | _, _ => false

/-- JavaScript number-to-string conversion as used by `count.toString()` and
template literals: `NaN` prints as `"NaN"`, integers in decimal with a leading
minus sign when negative. -/
def jsToString : JSNum → String
  | .nan => "NaN"
  | .num i => if i < 0 then "-" ++ natRepr i.natAbs else natRepr i.toNat

/-- The digit-prefix step of `parseInt(s, 10)` after sign handling: take the
leading run of decimal digits; `NaN` when there is none. -/
def parseDigits (cs : List Char) (neg : Bool) : JSNum :=
  let ds := cs.takeWhile isDigitChar
  if ds = [] then .nan
  else if neg then .num (-(digitsVal ds : Int)) else .num (digitsVal ds)

/-- JavaScript `parseInt(s, 10)`: skip leading whitespace, accept an optional
sign, parse the leading run of decimal digits, `NaN` when no digit follows. -/
def parseIntJS (s : String) : JSNum :=
  match s.data.dropWhile isJsWs with
  | [] => .nan
  | c :: rest =>
    if c = '-' then parseDigits rest true
    else if c = '+' then parseDigits rest false
    else parseDigits (c :: rest) false

/-- JavaScript `toLowerCase` (agrees with it on the ASCII strings at play). -/
def jsToLower (s : String) : String :=
  ⟨s.data.map Char.toLower⟩

/-- One pass of `replace(/\s+/g, '_')`: `inWs` records whether the previous
character was inside a whitespace run already replaced by `'_'`. -/
def collapseWsAux : List Char → Bool → List Char
  | [], _ => []
  | c :: cs, inWs =>
    if isJsWs c then
      if inWs then collapseWsAux cs true
      else '_' :: collapseWsAux cs true
    else
      c :: collapseWsAux cs false

/-- JavaScript `s.replace(/\s+/g, '_')`: every maximal whitespace run becomes one `'_'`. -/
def collapseWs (s : String) : String :=
  ⟨collapseWsAux s.data false⟩

/-- The `new Date()` observations the code makes: `getFullYear()`,
`getMonth()` (0-based), `getDate()`, and the date part of `toISOString()`
(a UTC date string, kept abstract since only the local components drive keys). -/
structure JSDate where
  year : Nat
  month : Nat
  day : Nat
  isoDay : String
deriving DecidableEq

/-- The `localStorage` store, as an association list; `lookup` finds the first binding,
and writing conses a fresh binding in front. -/
abbrev Store := List (String × String)

/-- JavaScript `localStorage.setItem(k, v)`. -/
def setItem (st : Store) (k v : String) : Store :=
  (k, v) :: st

/-- One entry of `event.exception.values`: `type` and `value` may each be
absent (`undefined`) or any string. -/
structure SentryException where
  type : Option String
  value : Option String
deriving DecidableEq

/-- The `event.extra.deduplication` metadata block attached to forwarded
events. -/
structure DedupMeta where
  day : String
  fingerprint : String
  count : JSNum
  nextReportAt : JSNum
  metaKind : String
deriving DecidableEq

/-- A value stored under a key of `event.extra`: either the deduplication
block this code writes, or any other JavaScript value, kept abstract. -/
inductive ExtraVal where
  | dedup (m : DedupMeta)
  | raw (n : Nat)
deriving DecidableEq

/-- The parts of a Sentry event this code observes or modifies.  `rest`
stands in abstractly for every remaining event field (`type`, `level`, ...),
none of which the processor touches. -/
structure SentryEvent where
  exceptionValues : Option (List SentryException)
  message : Option String
  extra : Option (List (String × ExtraVal))
  rest : Nat
deriving DecidableEq

/-- JavaScript property assignment `obj[k] = v` on an object rendered as an
association list: replace the binding in place, or append a new one. -/
def setProp : List (String × ExtraVal) → String → ExtraVal → List (String × ExtraVal)
  | [], k, v => [(k, v)]
  | p :: ps, k, v => if p.1 = k then (k, v) :: ps else p :: setProp ps k v

/-- Source `getDailyKey(fingerprint)`:
`` `sentry-dedup-${now.getFullYear()}-${now.getMonth() + 1}-${now.getDate()}-${fingerprint}` ``. -/
def getDailyKey (now : JSDate) (fp : String) : String :=
  "sentry-dedup-" ++ natRepr now.year ++ "-" ++ natRepr (now.month + 1) ++ "-" ++
    natRepr now.day ++ "-" ++ fp

/-- Source `getErrorCount(fingerprint)`: read today's key; a missing key, or an
empty (falsy) string, is 0; otherwise `parseInt(data, 10)`. -/
def getErrorCount (now : JSDate) (fp : String) (st : Store) : JSNum :=
  match st.lookup (getDailyKey now fp) with
  | none => .num 0
  | some data => if data = "" then .num 0 else parseIntJS data

/-- Source `incrementErrorCount(fingerprint)`: add 1 to today's count, write it
back as a string, return it (paired with the updated store). -/
def incrementErrorCount (now : JSDate) (fp : String) (st : Store) : JSNum × Store :=
  let key := getDailyKey now fp
  let count := jsAdd (getErrorCount now fp st) (.num 1)
  (count, setItem st key (jsToString count))

/-- Source `shouldReportError(fingerprint)` (the spec's `shouldForward`): increment,
then report iff `count === 1 || (count - 1) % 10 === 0`. -/
def shouldReportError (now : JSDate) (fp : String) (st : Store) : Bool × Store :=
  let r := incrementErrorCount now fp st
  (jsEq r.1 (.num 1) || jsEq (jsMod (jsSub r.1 (.num 1)) (.num 10)) (.num 0), r.2)

/-- Source `getErrorFingerprint(event)`: from the first exception entry,
`` `${type}:${message}` `` lowercased with whitespace runs collapsed to `'_'`;
else from a truthy `event.message`, `` `message:${event.message}` `` likewise;
else `'unknown'`. -/
def getErrorFingerprint (event : SentryEvent) : String :=
  match event.exceptionValues with
  | some (exc :: _) =>
      collapseWs (jsToLower ((exc.type.getD "") ++ ":" ++ (exc.value.getD "")))
  | _ =>
      match event.message with
      | some m => if m = "" then "unknown" else collapseWs (jsToLower ("message:" ++ m))
      | none => "unknown"

/-- Truthiness of `event.message`: present and non-empty. -/
def msgTruthy : Option String → Bool
  | none => false
  | some s => s != ""

/-- JavaScript `Math.floor((count - 1) / 10) * 10 + 11` (floating-point division
followed by `Math.floor`, modelled exactly as floor division). -/
def nextReportAt : JSNum → JSNum
  | .nan => .nan
  | .num i => .num (Int.fdiv (i - 1) 10 * 10 + 11)

/-- Source `dedupeEventProcessor(event)` (the spec's `process`): pass non-error
events through, pass `'unknown'` fingerprints through, otherwise count and
either drop (`none`) or forward the event annotated with
`extra.deduplication`. -/
def dedupeEventProcessor (now : JSDate) (st : Store) (event : SentryEvent) :
    Option SentryEvent × Store :=
  if event.exceptionValues.isNone && !msgTruthy event.message then (some event, st)
  else
    let fp := getErrorFingerprint event
    if fp = "unknown" then (some event, st)
    else
      let r := shouldReportError now fp st
      let currentCount := getErrorCount now fp r.2
      if !r.1 then (none, r.2)
      else
        (some { event with extra := some (setProp (event.extra.getD []) "deduplication"
            (.dedup ⟨now.isoDay, fp, currentCount, nextReportAt currentCount,
              "per_error_deduplication"⟩)) }, r.2)

/-- N successive `shouldReportError` calls for one fingerprint on one day:
the list of decisions in call order, with the final store. -/
def runCalls (d : JSDate) (fp : String) : Nat → Store → List Bool × Store
  | 0, st => ([], st)
  | n+1, st =>
      let r := shouldReportError d fp st
      let q := runCalls d fp n r.2
      (r.1 :: q.1, q.2)

/-! ### Basic facts about the embedded JavaScript primitives -/

theorem data_append (s t : String) : (s ++ t).data = s.data ++ t.data := by
  cases s; cases t; rfl

theorem data_inj {s t : String} (h : s.data = t.data) : s = t := by
  cases s; cases t; exact congrArg String.mk h

theorem digitChar_toNat {d : Nat} (h : d < 10) : (digitChar d).toNat = 48 + d := by
  interval_cases d <;> rfl

theorem digitChar_isDigit {d : Nat} (h : d < 10) : isDigitChar (digitChar d) = true := by
  interval_cases d <;> decide

theorem mem_natToDigitsAux_isDigit :
    ∀ (fuel n : Nat) (c : Char), c ∈ natToDigitsAux fuel n → isDigitChar c = true := by
  intro fuel
  induction fuel with
  | zero => intro n c h; simp [natToDigitsAux] at h
  | succ f ih =>
    intro n c h
    rw [natToDigitsAux] at h
    by_cases hn : n < 10
    · rw [if_pos hn] at h
      simp only [List.mem_singleton] at h
      exact h ▸ digitChar_isDigit hn
    · rw [if_neg hn] at h
      rcases List.mem_append.mp h with h | h
      · exact ih _ _ h
      · simp only [List.mem_singleton] at h
        exact h ▸ digitChar_isDigit (Nat.mod_lt n (by norm_num))

theorem natToDigitsAux_ne_nil (fuel n : Nat) (h : 0 < fuel) :
    natToDigitsAux fuel n ≠ [] := by
  match fuel, h with
  | f + 1, _ =>
    rw [natToDigitsAux]
    by_cases hn : n < 10 <;> simp [hn]

theorem digitsVal_append_singleton (xs : List Char) (c : Char) :
    digitsVal (xs ++ [c]) = digitsVal xs * 10 + (c.toNat - 48) := by
  simp [digitsVal, List.foldl_append]

theorem digitsVal_natToDigitsAux :
    ∀ (fuel n : Nat), n < fuel → digitsVal (natToDigitsAux fuel n) = n := by
  intro fuel
  induction fuel with
  | zero => intro n h; exact absurd h (Nat.not_lt_zero n)
  | succ f ih =>
    intro n h
    rw [natToDigitsAux]
    by_cases hn : n < 10
    · rw [if_pos hn]
      simp [digitsVal, digitChar_toNat hn]
    · rw [if_neg hn, digitsVal_append_singleton, ih (n / 10) (by omega),
        digitChar_toNat (Nat.mod_lt n (by norm_num))]
      omega

theorem natRepr_digits {n : Nat} : ∀ c ∈ (natRepr n).data, isDigitChar c = true :=
  fun c h => mem_natToDigitsAux_isDigit _ _ c h

theorem natRepr_data_ne_nil (n : Nat) : (natRepr n).data ≠ [] :=
  natToDigitsAux_ne_nil _ _ (Nat.succ_pos n)

theorem digitsVal_natRepr (n : Nat) : digitsVal (natRepr n).data = n :=
  digitsVal_natToDigitsAux _ _ (Nat.lt_succ_self n)

theorem natRepr_inj {m n : Nat} (h : natRepr m = natRepr n) : m = n := by
  have h2 := congrArg (fun s => digitsVal s.data) h
  simpa [digitsVal_natRepr] using h2

theorem isDigitChar_not_ws {c : Char} (h : isDigitChar c = true) : isJsWs c = false := by
  simp only [isDigitChar, Bool.and_eq_true, decide_eq_true_eq] at h
  simp only [isJsWs, Bool.or_eq_false_iff, Bool.and_eq_false_iff, beq_eq_false_iff_ne,
    ne_eq, decide_eq_false_iff_not, not_le, not_and]
  omega

theorem isDigitChar_ne_dash {c : Char} (h : isDigitChar c = true) : c ≠ '-' := by
  intro hc; subst hc; exact absurd h (by decide)

theorem isDigitChar_ne_plus {c : Char} (h : isDigitChar c = true) : c ≠ '+' := by
  intro hc; subst hc; exact absurd h (by decide)

theorem takeWhile_all {p : Char → Bool} :
    ∀ (l : List Char), (∀ c ∈ l, p c = true) → l.takeWhile p = l := by
  intro l
  induction l with
  | nil => intro _; rfl
  | cons a l ih =>
    intro h
    rw [List.takeWhile_cons, h a (by simp)]
    simp [ih (fun c hc => h c (by simp [hc]))]

theorem parseIntJS_natRepr (n : Nat) : parseIntJS (natRepr n) = .num n := by
  have hall : ∀ c ∈ (natRepr n).data, isDigitChar c = true := natRepr_digits
  rcases hcase : (natRepr n).data with _ | ⟨c, cs⟩
  · exact absurd hcase (natRepr_data_ne_nil n)
  · have hc : isDigitChar c = true := hall c (by rw [hcase]; simp)
    have hcs : ∀ x ∈ c :: cs, isDigitChar x = true :=
      fun x hx => hall x (by rw [hcase]; exact hx)
    have hval : digitsVal (c :: cs) = n := by
      have h2 := digitsVal_natRepr n
      rwa [hcase] at h2
    unfold parseIntJS
    rw [hcase]
    have hdrop : List.dropWhile isJsWs (c :: cs) = c :: cs := by
      rw [List.dropWhile_cons, isDigitChar_not_ws hc]; simp
    rw [hdrop]
    show (if c = '-' then parseDigits cs true
      else if c = '+' then parseDigits cs false
      else parseDigits (c :: cs) false) = JSNum.num n
    rw [if_neg (isDigitChar_ne_dash hc), if_neg (isDigitChar_ne_plus hc)]
    simp [parseDigits, takeWhile_all _ hcs, hval]

theorem parseIntJS_neg_natRepr (n : Nat) :
    parseIntJS ("-" ++ natRepr n) = .num (-(n : Int)) := by
  have hall : ∀ c ∈ (natRepr n).data, isDigitChar c = true := natRepr_digits
  have hdata : ("-" ++ natRepr n).data = '-' :: (natRepr n).data := by
    rw [data_append]; rfl
  unfold parseIntJS
  rw [hdata]
  have hdrop : List.dropWhile isJsWs ('-' :: (natRepr n).data) = '-' :: (natRepr n).data := by
    rw [List.dropWhile_cons]
    simp [show isJsWs '-' = false from by decide]
  rw [hdrop]
  show parseDigits (natRepr n).data true = JSNum.num (-(n : Int))
  rw [parseDigits, takeWhile_all _ hall]
  simp [natRepr_data_ne_nil n, digitsVal_natRepr n]

theorem jsToString_num_ne_empty (v : Int) : jsToString (.num v) ≠ "" := by
  intro h
  have hd := congrArg String.data h
  by_cases hv : v < 0
  · rw [show jsToString (.num v) = "-" ++ natRepr v.natAbs from by simp [jsToString, hv],
      data_append] at hd
    simp at hd
  · rw [show jsToString (.num v) = natRepr v.toNat from by simp [jsToString, hv]] at hd
    exact natRepr_data_ne_nil v.toNat (by simpa using hd)

theorem parse_jsToString (v : Int) : parseIntJS (jsToString (.num v)) = .num v := by
  by_cases hv : v < 0
  · rw [show jsToString (.num v) = "-" ++ natRepr v.natAbs from by simp [jsToString, hv],
      parseIntJS_neg_natRepr]
    congr 1
    omega
  · rw [show jsToString (.num v) = natRepr v.toNat from by simp [jsToString, hv],
      parseIntJS_natRepr]
    congr 1
    omega

/-! ### Facts about the store and the counter operations -/

theorem lookup_cons_self {β : Type} {k : String} {v : β} {st : List (String × β)} :
    ((k, v) :: st).lookup k = some v := by
  simp [List.lookup]

theorem lookup_cons_ne {β : Type} {k k' : String} {v : β} {st : List (String × β)}
    (h : k' ≠ k) : ((k, v) :: st).lookup k' = st.lookup k' := by
  have hb : (k' == k) = false := beq_eq_false_iff_ne.mpr h
  simp [List.lookup, hb]

theorem getErrorCount_setItem (d : JSDate) (fp : String) (st : Store) (v : Int) :
    getErrorCount d fp (setItem st (getDailyKey d fp) (jsToString (.num v))) = .num v := by
  unfold getErrorCount setItem
  rw [lookup_cons_self]
  show (if jsToString (JSNum.num v) = "" then JSNum.num 0
    else parseIntJS (jsToString (JSNum.num v))) = JSNum.num v
  rw [if_neg (jsToString_num_ne_empty v), parse_jsToString]

theorem getErrorCount_fresh (d : JSDate) (fp : String) (st : Store)
    (h : st.lookup (getDailyKey d fp) = none) : getErrorCount d fp st = .num 0 := by
  unfold getErrorCount
  rw [h]

/-- One `shouldReportError` call on a store whose current count reads as the
integer `i`: the decision is `count === 1 || (count - 1) % 10 === 0` for
`count = i + 1`, and the store gains today's key bound to the decimal string
of `i + 1`. -/
theorem shouldReportError_num {d : JSDate} {fp : String} {st : Store} {i : Int}
    (h : getErrorCount d fp st = .num i) :
    shouldReportError d fp st =
      (((i + 1 == 1) || (Int.tmod i 10 == 0)),
        setItem st (getDailyKey d fp) (jsToString (.num (i + 1)))) := by
  unfold shouldReportError incrementErrorCount
  simp only [h, jsAdd, jsSub, jsMod, jsEq]
  norm_num

theorem getErrorCount_after {d : JSDate} {fp : String} {st : Store} {i : Int}
    (h : getErrorCount d fp st = .num i) :
    getErrorCount d fp (shouldReportError d fp st).2 = .num (i + 1) := by
  rw [shouldReportError_num h]
  exact getErrorCount_setItem d fp st (i + 1)

theorem decision_of_nat (j : Nat) :
    ((((j : Int) + 1 == 1)) || (Int.tmod (j : Int) 10 == 0)) = decide (j % 10 = 0) := by
  have htm : Int.tmod (j : Int) 10 = ((j % 10 : Nat) : Int) := rfl
  rw [htm]
  by_cases hj : j % 10 = 0
  · simp [hj]
  · have h1 : ((j : Int) + 1 == 1) = false := by
      rw [beq_eq_false_iff_ne]
      intro hc
      omega
    have h2 : (((j % 10 : Nat) : Int) == 0) = false := by
      rw [beq_eq_false_iff_ne]
      intro hc
      omega
    rw [h1, h2]
    simp [hj]

/-- Invariant of `n` successive calls starting from a store whose count reads
as the natural number `j`: the count grows to `j + n` and the `k`-th decision
(0-indexed) is forward exactly when `(j + k) % 10 = 0`. -/
theorem runCalls_invariant (n : Nat) :
    ∀ (d : JSDate) (fp : String) (st : Store) (j : Nat),
    getErrorCount d fp st = .num j →
    getErrorCount d fp (runCalls d fp n st).2 = .num (j + n) ∧
    ∀ k, k < n → (runCalls d fp n st).1.getD k false = decide ((j + k) % 10 = 0) := by
  induction n with
  | zero =>
    intro d fp st j h
    exact ⟨by simpa using h, fun k hk => absurd hk (by omega)⟩
  | succ m ih =>
    intro d fp st j h
    have hcount : getErrorCount d fp (shouldReportError d fp st).2 = .num ((j : Int) + 1) :=
      getErrorCount_after h
    have hcount' : getErrorCount d fp (shouldReportError d fp st).2 = .num ((j + 1 : Nat)) := by
      rw [hcount]
      norm_cast
    obtain ⟨ih1, ih2⟩ := ih d fp (shouldReportError d fp st).2 (j + 1) hcount'
    constructor
    · show getErrorCount d fp (runCalls d fp m (shouldReportError d fp st).2).2 = _
      rw [ih1]
      congr 1
      omega
    · intro k hk
      show ((shouldReportError d fp st).1 ::
          (runCalls d fp m (shouldReportError d fp st).2).1).getD k false = _
      cases k with
      | zero =>
        simp only [List.getD_cons_zero, Nat.add_zero]
        rw [congrArg Prod.fst (shouldReportError_num h)]
        exact decision_of_nat j
      | succ k' =>
        simp only [List.getD_cons_succ]
        rw [ih2 k' (by omega)]
        rw [decide_eq_decide]
        omega

/-! ### The claims -/

/-- A sample date used by concrete witnesses. -/
def sampleDate : JSDate := ⟨2025, 9, 14, "2025-10-14"⟩

/-- C1: each `shouldForward` call increments the day's counter for the
fingerprint by 1 and forwards exactly when the resulting count `c` has
`c = 1` or `(c - 1) % 10 = 0`; hence, starting the day at count 0, the `N`
successive calls forward exactly at calls 1, 11, 21, ... -/
theorem shouldForward_sequence (d : JSDate) (fp : String) :
    (∀ (st : Store) (i : Int), getErrorCount d fp st = .num i →
      getErrorCount d fp (shouldReportError d fp st).2 = .num (i + 1) ∧
      (shouldReportError d fp st).1 =
        decide (i + 1 = 1 ∨ Int.tmod (i + 1 - 1) 10 = 0)) ∧
    (∀ (st : Store), getErrorCount d fp st = .num 0 →
      ∀ (n k : Nat), k < n →
        (runCalls d fp n st).1.getD k false = decide ((k + 1) % 10 = 1) ∧
        getErrorCount d fp (runCalls d fp n st).2 = .num n) := by
  constructor
  · intro st i hi
    refine ⟨getErrorCount_after hi, ?_⟩
    rw [congrArg Prod.fst (shouldReportError_num hi)]
    have he : (i + 1 - 1 : Int) = i := by ring
    rw [he]
    by_cases h1 : i + 1 = 1 <;> by_cases h2 : Int.tmod i 10 = 0 <;> simp [h1, h2]
  · intro st h0 n k hk
    have h0' : getErrorCount d fp st = .num ((0 : Nat)) := by simpa using h0
    obtain ⟨hcnt, hdec⟩ := runCalls_invariant n d fp st 0 h0'
    refine ⟨?_, by simpa using hcnt⟩
    rw [hdec k hk, decide_eq_decide]
    omega

/-- Witness for C1 at the spec's scenario fingerprint over 21 calls. -/
theorem shouldForward_sequence_witness :
    (runCalls sampleDate "rangeerror:invalid_array_length" 21 []).1.getD 0 false
        = decide ((0 + 1) % 10 = 1) ∧
    (runCalls sampleDate "rangeerror:invalid_array_length" 21 []).1.getD 1 false
        = decide ((1 + 1) % 10 = 1) ∧
    (runCalls sampleDate "rangeerror:invalid_array_length" 21 []).1.getD 10 false
        = decide ((10 + 1) % 10 = 1) ∧
    getErrorCount sampleDate "rangeerror:invalid_array_length"
        (runCalls sampleDate "rangeerror:invalid_array_length" 21 []).2 = .num 21 :=
  ⟨((shouldForward_sequence sampleDate "rangeerror:invalid_array_length").2 []
      (by decide) 21 0 (by omega)).1,
   ((shouldForward_sequence sampleDate "rangeerror:invalid_array_length").2 []
      (by decide) 21 1 (by omega)).1,
   ((shouldForward_sequence sampleDate "rangeerror:invalid_array_length").2 []
      (by decide) 21 10 (by omega)).1,
   by simpa using ((shouldForward_sequence sampleDate "rangeerror:invalid_array_length").2 []
      (by decide) 21 0 (by omega)).2⟩

/-- C6: every `shouldForward` call writes back exactly the old numeric count
plus 1 (whether the decision is forward or drop — the store effect is the
same), the written count reads back, and a key with no entry yet (a new
calendar day) reads 0. -/
theorem counter_increment (d : JSDate) (fp : String) (st : Store) (i : Int)
    (h : getErrorCount d fp st = .num i) :
    incrementErrorCount d fp st =
      (.num (i + 1), setItem st (getDailyKey d fp) (jsToString (.num (i + 1)))) ∧
    (shouldReportError d fp st).2 =
      setItem st (getDailyKey d fp) (jsToString (.num (i + 1))) ∧
    getErrorCount d fp (shouldReportError d fp st).2 = .num (i + 1) ∧
    (∀ st' : Store, st'.lookup (getDailyKey d fp) = none →
      getErrorCount d fp st' = .num 0) := by
  refine ⟨?_, ?_, getErrorCount_after h, fun st' h' => getErrorCount_fresh d fp st' h'⟩
  · unfold incrementErrorCount
    simp [h, jsAdd]
  · rw [congrArg Prod.snd (shouldReportError_num h)]

/-- Witness for C6 at a concrete store holding count 3. -/
theorem counter_increment_witness :
    getErrorCount sampleDate "error:boom"
      (shouldReportError sampleDate "error:boom"
        [(getDailyKey sampleDate "error:boom", "3")]).2 = .num 4 :=
  (counter_increment sampleDate "error:boom"
    [(getDailyKey sampleDate "error:boom", "3")] 3 (by decide)).2.2.1

/-- A store holding a corrupted (non-numeric) counter value for
`sampleDate` and the fingerprint `"error:boom"`. -/
def corruptStore : Store := [(getDailyKey sampleDate "error:boom", "corrupted")]

/-- C2 counterexample: with the stored value `"corrupted"` under today's
key, `getErrorCount` returns `NaN`, not 0, and the next `shouldForward`
call is dropped instead of behaving as a first occurrence. -/
theorem corruptedCount_cex :
    getErrorCount sampleDate "error:boom" corruptStore ≠ .num 0 ∧
    getErrorCount sampleDate "error:boom" corruptStore = .nan ∧
    (shouldReportError sampleDate "error:boom" corruptStore).1 = false := by
  decide

/-- C2 amended: an absent or empty stored value reads as 0 (so the next
call forwards as a first occurrence), but a stored value `parseInt` cannot
parse reads as `NaN`: the next call then stores `"NaN"` and returns decision
`false` (drop).  No parse failure propagates in either case — every
function stays total. -/
theorem corruptedCount_amended (d : JSDate) (fp : String) (st : Store) :
    (st.lookup (getDailyKey d fp) = none → getErrorCount d fp st = .num 0) ∧
    (∀ s, st.lookup (getDailyKey d fp) = some s → s = "" →
      getErrorCount d fp st = .num 0) ∧
    (∀ s, st.lookup (getDailyKey d fp) = some s → s ≠ "" → parseIntJS s = .nan →
      getErrorCount d fp st = .nan ∧
      (shouldReportError d fp st).1 = false ∧
      (shouldReportError d fp st).2 = setItem st (getDailyKey d fp) "NaN") := by
  refine ⟨fun h => getErrorCount_fresh d fp st h, ?_, ?_⟩
  · intro s hs hempty
    unfold getErrorCount
    rw [hs]
    show (if s = "" then JSNum.num 0 else parseIntJS s) = JSNum.num 0
    rw [if_pos hempty]
  · intro s hs hne hnan
    have hcount : getErrorCount d fp st = .nan := by
      unfold getErrorCount
      rw [hs]
      show (if s = "" then JSNum.num 0 else parseIntJS s) = JSNum.nan
      rw [if_neg hne, hnan]
    refine ⟨hcount, ?_, ?_⟩
    · unfold shouldReportError incrementErrorCount
      simp [hcount, jsAdd, jsSub, jsMod, jsEq]
    · unfold shouldReportError incrementErrorCount
      simp [hcount, jsAdd, jsToString]

/-- Witness for C2 (amended) at the corrupted store and at an empty store. -/
theorem corruptedCount_amended_witness :
    getErrorCount sampleDate "error:boom" [] = .num 0 ∧
    getErrorCount sampleDate "error:boom" corruptStore = .nan ∧
    (shouldReportError sampleDate "error:boom" corruptStore).1 = false :=
  ⟨(corruptedCount_amended sampleDate "error:boom" []).1 (by decide),
   ((corruptedCount_amended sampleDate "error:boom" corruptStore).2.2 "corrupted"
      (by decide) (by decide) (by decide)).1,
   ((corruptedCount_amended sampleDate "error:boom" corruptStore).2.2 "corrupted"
      (by decide) (by decide) (by decide)).2.1⟩

/-! ### Injectivity of the daily key -/

theorem sep_split {sep : Char} :
    ∀ (a a' r r' : List Char), sep ∉ a → sep ∉ a' →
      a ++ sep :: r = a' ++ sep :: r' → a = a' ∧ r = r' := by
  intro a
  induction a with
  | nil =>
    intro a' r r' _ ha' h
    cases a' with
    | nil => simpa using h
    | cons b bs =>
      simp only [List.nil_append, List.cons_append, List.cons.injEq] at h
      exact absurd (by rw [h.1]; exact List.mem_cons_self b bs) ha'
  | cons x xs ih =>
    intro a' r r' ha ha' h
    cases a' with
    | nil =>
      simp only [List.cons_append, List.nil_append, List.cons.injEq] at h
      exact absurd (by rw [h.1]; exact List.mem_cons_self sep xs) ha
    | cons y ys =>
      simp only [List.cons_append, List.cons.injEq] at h
      obtain ⟨hxy, htail⟩ := h
      have hrec := ih ys r r' (fun hm => ha (List.mem_cons_of_mem x hm))
        (fun hm => ha' (List.mem_cons_of_mem y hm)) htail
      exact ⟨by rw [hxy, hrec.1], hrec.2⟩

theorem natRepr_no_dash (n : Nat) : '-' ∉ (natRepr n).data :=
  fun h => isDigitChar_ne_dash (natRepr_digits '-' h) rfl

theorem getDailyKey_data (now : JSDate) (fp : String) :
    (getDailyKey now fp).data =
      "sentry-dedup-".data ++ ((natRepr now.year).data ++ '-' ::
        ((natRepr (now.month + 1)).data ++ '-' ::
          ((natRepr now.day).data ++ '-' :: fp.data))) := by
  unfold getDailyKey
  simp [data_append, List.append_assoc]

/-- The daily key determines the local date components and the fingerprint:
decimal numerals contain no dash, so the dashes after the fixed prefix split
the key unambiguously. -/
theorem getDailyKey_inj {a b : JSDate} {fp fp' : String}
    (h : getDailyKey a fp = getDailyKey b fp') :
    a.year = b.year ∧ a.month = b.month ∧ a.day = b.day ∧ fp = fp' := by
  have hd := congrArg String.data h
  rw [getDailyKey_data, getDailyKey_data] at hd
  have h1 := List.append_cancel_left hd
  obtain ⟨hy, hrest⟩ := sep_split _ _ _ _ (natRepr_no_dash _) (natRepr_no_dash _) h1
  obtain ⟨hm, hrest2⟩ := sep_split _ _ _ _ (natRepr_no_dash _) (natRepr_no_dash _) hrest
  obtain ⟨hday, hfp⟩ := sep_split _ _ _ _ (natRepr_no_dash _) (natRepr_no_dash _) hrest2
  refine ⟨natRepr_inj (data_inj hy), ?_, natRepr_inj (data_inj hday), data_inj hfp⟩
  have := natRepr_inj (data_inj hm)
  omega

theorem lookup_eq_none {k : String} :
    ∀ (l : Store), (∀ p ∈ l, p.1 ≠ k) → l.lookup k = none := by
  intro l
  induction l with
  | nil => intro _; rfl
  | cons p l ih =>
    intro h
    cases p with
    | mk k' v =>
      rw [lookup_cons_ne (Ne.symm (h (k', v) (List.mem_cons_self _ _)))]
      exact ih (fun q hq => h q (List.mem_cons_of_mem _ hq))

/-- C7: the daily key embeds the local date components, so after the local
date changes, a store whose keys all belong to the old date reads an
effective count 0 for every fingerprint and the first call forwards
(count 1), however large the old day's counts were. -/
theorem day_rollover_reset (d d' : JSDate) (fp : String) (st : Store)
    (hkeys : ∀ p ∈ st, ∃ fp', p.1 = getDailyKey d fp')
    (hne : ¬(d.year = d'.year ∧ d.month = d'.month ∧ d.day = d'.day)) :
    getErrorCount d' fp st = .num 0 ∧
    shouldReportError d' fp st = (true, setItem st (getDailyKey d' fp) "1") := by
  have hnone : st.lookup (getDailyKey d' fp) = none := by
    refine lookup_eq_none st (fun p hp hpk => ?_)
    obtain ⟨fp', hfp'⟩ := hkeys p hp
    obtain ⟨hy, hm, hday, _⟩ := getDailyKey_inj (hfp' ▸ hpk)
    exact hne ⟨hy, hm, hday⟩
  have h0 : getErrorCount d' fp st = .num 0 := getErrorCount_fresh d' fp st hnone
  refine ⟨h0, ?_⟩
  rw [shouldReportError_num h0,
    show jsToString (JSNum.num ((0 : Int) + 1)) = "1" from by decide]
  simp

/-- A date one local day after `sampleDate`. -/
def nextDate : JSDate := ⟨2025, 9, 15, "2025-10-15"⟩

/-- Witness for C7: a store carrying count 999 for the previous day. -/
theorem day_rollover_reset_witness :
    getErrorCount nextDate "error:boom" [(getDailyKey sampleDate "error:boom", "999")] = .num 0 ∧
    shouldReportError nextDate "error:boom" [(getDailyKey sampleDate "error:boom", "999")] =
      (true, setItem [(getDailyKey sampleDate "error:boom", "999")]
        (getDailyKey nextDate "error:boom") "1") :=
  day_rollover_reset sampleDate nextDate "error:boom" _
    (by
      intro p hp
      simp only [List.mem_singleton] at hp
      exact ⟨"error:boom", by rw [hp]⟩)
    (by decide)

/-! ### Facts about lowercasing and whitespace collapsing -/

theorem jsToLower_append (s t : String) :
    jsToLower (s ++ t) = jsToLower s ++ jsToLower t := by
  apply data_inj
  show ((s ++ t).data).map Char.toLower = (jsToLower s ++ jsToLower t).data
  rw [data_append, List.map_append, data_append]
  rfl

theorem collapseWsAux_append_nonws :
    ∀ (xs : List Char) (b : Bool) (c : Char) (rest : List Char), isJsWs c = false →
      collapseWsAux (xs ++ c :: rest) b =
        collapseWsAux xs b ++ c :: collapseWsAux rest false := by
  intro xs
  induction xs with
  | nil =>
    intro b c rest hc
    simp [collapseWsAux, hc]
  | cons x xs ih =>
    intro b c rest hc
    by_cases hx : isJsWs x = true
    · cases b with
      | true =>
        simp only [List.cons_append, collapseWsAux, hx, if_true]
        exact ih true c rest hc
      | false =>
        simp only [List.cons_append, collapseWsAux, hx, if_true]
        exact congrArg (List.cons '_') (ih true c rest hc)
    · have hx' : isJsWs x = false := by simpa using hx
      simp only [List.cons_append, collapseWsAux, hx', Bool.false_eq_true, if_false]
      exact congrArg (List.cons x) (ih false c rest hc)

theorem collapseWs_colon (a b : String) :
    collapseWs (a ++ ":" ++ b) = collapseWs a ++ ":" ++ collapseWs b := by
  apply data_inj
  show collapseWsAux ((a ++ ":" ++ b).data) false = (collapseWs a ++ ":" ++ collapseWs b).data
  rw [data_append, data_append, data_append, data_append]
  have h1 : (a.data ++ (":" : String).data) ++ b.data = a.data ++ ':' :: b.data := by
    simp
  rw [h1, collapseWsAux_append_nonws a.data false ':' b.data (by decide)]
  simp [collapseWs]

/-! ### The fingerprint function -/

/-- The exception branch of `getErrorFingerprint` decomposes as the
normalized type, a colon, and the normalized message. -/
theorem fingerprint_exception {e : SentryEvent} {exc : SentryException}
    {tl : List SentryException} (he : e.exceptionValues = some (exc :: tl)) :
    getErrorFingerprint e =
      collapseWs (jsToLower (exc.type.getD "")) ++ ":" ++
        collapseWs (jsToLower (exc.value.getD "")) := by
  unfold getErrorFingerprint
  rw [he]
  show collapseWs (jsToLower ((exc.type.getD "") ++ ":" ++ (exc.value.getD ""))) = _
  rw [jsToLower_append, jsToLower_append,
    show jsToLower ":" = ":" from by decide, collapseWs_colon]

/-- The message branch of `getErrorFingerprint` decomposes as the literal
`"message"`, a colon, and the normalized message. -/
theorem fingerprint_message {e : SentryEvent} {m : String}
    (he : e.exceptionValues = none ∨ e.exceptionValues = some [])
    (hm : e.message = some m) (hm0 : m ≠ "") :
    getErrorFingerprint e = "message" ++ ":" ++ collapseWs (jsToLower m) := by
  have hstep : collapseWs (jsToLower ("message:" ++ m)) =
      "message" ++ ":" ++ collapseWs (jsToLower m) := by
    rw [jsToLower_append, show jsToLower "message:" = "message:" from by decide,
      show ("message:" : String) = "message" ++ ":" from by decide,
      collapseWs_colon, show collapseWs "message" = "message" from by decide]
  unfold getErrorFingerprint
  rcases he with he | he
  · rw [he, hm]
    show (if m = "" then "unknown" else collapseWs (jsToLower ("message:" ++ m))) = _
    rw [if_neg hm0, hstep]
  · rw [he, hm]
    show (if m = "" then "unknown" else collapseWs (jsToLower ("message:" ++ m))) = _
    rw [if_neg hm0, hstep]

/-- C3's rendering of the spec's fingerprint derivation rules, §3/§4.1:
for an event carrying an exception, `lowercase(type) + ":" +
lowercase(message)` with whitespace runs collapsed to underscores; for an
event carrying only a (non-empty, i.e. truthy) message, `"message:" +
lowercase(message)` likewise; the sentinel `"unknown"` otherwise. -/
def fingerprintSpec (e : SentryEvent) : String :=
  match e.exceptionValues with
  | some (exc :: _) =>
      collapseWs (jsToLower (exc.type.getD "") ++ ":" ++ jsToLower (exc.value.getD ""))
  | _ =>
      match e.message with
      | some m => if m = "" then "unknown" else collapseWs ("message:" ++ jsToLower m)
      | none => "unknown"

/-- C3: `getErrorFingerprint` is total by construction and agrees with the
spec's derivation rules on every event. -/
theorem fingerprint_matches_spec (e : SentryEvent) :
    getErrorFingerprint e = fingerprintSpec e := by
  rcases he : e.exceptionValues with _ | (_ | ⟨exc, tl⟩)
  · unfold getErrorFingerprint fingerprintSpec
    rw [he]
    rcases hm : e.message with _ | m
    · rfl
    · show (if m = "" then "unknown" else collapseWs (jsToLower ("message:" ++ m))) =
        (if m = "" then "unknown" else collapseWs ("message:" ++ jsToLower m))
      by_cases hm0 : m = ""
      · rw [if_pos hm0, if_pos hm0]
      · rw [if_neg hm0, if_neg hm0, jsToLower_append,
          show jsToLower "message:" = "message:" from by decide]
  · unfold getErrorFingerprint fingerprintSpec
    rw [he]
    rcases hm : e.message with _ | m
    · rfl
    · show (if m = "" then "unknown" else collapseWs (jsToLower ("message:" ++ m))) =
        (if m = "" then "unknown" else collapseWs ("message:" ++ jsToLower m))
      by_cases hm0 : m = ""
      · rw [if_pos hm0, if_pos hm0]
      · rw [if_neg hm0, if_neg hm0, jsToLower_append,
          show jsToLower "message:" = "message:" from by decide]
  · rw [fingerprint_exception he, ← collapseWs_colon]
    unfold fingerprintSpec
    rw [he]

/-- C4: when the fingerprint is the sentinel `"unknown"`, the processor
forwards the event unchanged and leaves the store untouched — no counter,
not even an `"unknown"` bucket, is incremented. -/
theorem unknown_passthrough (d : JSDate) (st : Store) (e : SentryEvent)
    (h : getErrorFingerprint e = "unknown") :
    dedupeEventProcessor d st e = (some e, st) := by
  unfold dedupeEventProcessor
  by_cases hg : (e.exceptionValues.isNone && !msgTruthy e.message) = true
  · rw [if_pos hg]
  · rw [if_neg hg]
    simp [h]

/-- An event with no exception data and no message. -/
def emptyEvent : SentryEvent := ⟨none, none, some [("k", .raw 5)], 3⟩

/-- Witness for C4 at a concrete empty event over a non-trivial store. -/
theorem unknown_passthrough_witness :
    dedupeEventProcessor sampleDate [("a", "b")] emptyEvent =
      (some emptyEvent, [("a", "b")]) :=
  unknown_passthrough sampleDate [("a", "b")] emptyEvent (by decide)

/-- The spec's notion of the normalized `(type, message)` pair of an event,
for events the gate fingerprints non-trivially: for an exception event the
lowercased, whitespace-collapsed type and message; for a (truthy) message
event the literal type `"message"` with the normalized message. -/
def normalizedPair (e : SentryEvent) : Option (String × String) :=
  match e.exceptionValues with
  | some (exc :: _) =>
      some (collapseWs (jsToLower (exc.type.getD "")),
        collapseWs (jsToLower (exc.value.getD "")))
  | _ =>
      match e.message with
      | some m => if m = "" then none else some ("message", collapseWs (jsToLower m))
      | none => none

/-- The fingerprint of any event with a normalized pair is the pair joined
by a colon. -/
theorem fingerprint_eq_pair {e : SentryEvent} {t v : String}
    (h : normalizedPair e = some (t, v)) :
    getErrorFingerprint e = t ++ ":" ++ v := by
  rcases he : e.exceptionValues with _ | (_ | ⟨exc, tl⟩)
  · rcases hm : e.message with _ | m
    · simp [normalizedPair, he, hm] at h
    · by_cases hm0 : m = ""
      · simp [normalizedPair, he, hm, hm0] at h
      · simp only [normalizedPair, he, hm, if_neg hm0, Option.some.injEq,
          Prod.mk.injEq] at h
        rw [fingerprint_message (Or.inl he) hm hm0, h.1, h.2]
  · rcases hm : e.message with _ | m
    · simp [normalizedPair, he, hm] at h
    · by_cases hm0 : m = ""
      · simp [normalizedPair, he, hm, hm0] at h
      · simp only [normalizedPair, he, hm, if_neg hm0, Option.some.injEq,
          Prod.mk.injEq] at h
        rw [fingerprint_message (Or.inr he) hm hm0, h.1, h.2]
  · simp only [normalizedPair, he, Option.some.injEq, Prod.mk.injEq] at h
    rw [fingerprint_exception he, h.1, h.2]

/-- Exception event with type `"a:b"` and message `"c"`. -/
def cexEvent1 : SentryEvent := ⟨some [⟨some "a:b", some "c"⟩], none, none, 0⟩

/-- Exception event with type `"a"` and message `"b:c"`. -/
def cexEvent2 : SentryEvent := ⟨some [⟨some "a", some "b:c"⟩], none, none, 0⟩

/-- C5 counterexample: the normalized pairs `("a:b", "c")` and
`("a", "b:c")` differ, yet both events fingerprint to `"a:b:c"` — the
claimed collision-freedom over normalized pairs fails when a type contains
a colon. -/
theorem fingerprint_collision_cex :
    normalizedPair cexEvent1 ≠ normalizedPair cexEvent2 ∧
    normalizedPair cexEvent1 = some ("a:b", "c") ∧
    normalizedPair cexEvent2 = some ("a", "b:c") ∧
    getErrorFingerprint cexEvent1 = getErrorFingerprint cexEvent2 := by
  decide

/-- C5 amended: `fingerprint` is deterministic over normalized pairs —
identical pairs (across both event variants, message events acting as type
`"message"`) give identical fingerprints — and it is collision-free over
pairs whose type component contains no colon. -/
theorem fingerprint_pair_amended (e1 e2 : SentryEvent) (p1 p2 : String × String)
    (h1 : normalizedPair e1 = some p1) (h2 : normalizedPair e2 = some p2) :
    (p1 = p2 → getErrorFingerprint e1 = getErrorFingerprint e2) ∧
    (':' ∉ p1.1.data → ':' ∉ p2.1.data → p1 ≠ p2 →
      getErrorFingerprint e1 ≠ getErrorFingerprint e2) := by
  obtain ⟨t1, v1⟩ := p1
  obtain ⟨t2, v2⟩ := p2
  rw [fingerprint_eq_pair h1, fingerprint_eq_pair h2]
  constructor
  · intro hp
    rw [show t1 = t2 from congrArg Prod.fst hp, show v1 = v2 from congrArg Prod.snd hp]
  · intro hc1 hc2 hne heq
    have hd := congrArg String.data heq
    rw [data_append, data_append, data_append, data_append] at hd
    have hd' : t1.data ++ ':' :: v1.data = t2.data ++ ':' :: v2.data := by
      simpa using hd
    obtain ⟨ht, hv⟩ := sep_split _ _ _ _ hc1 hc2 hd'
    apply hne
    have ht' : t1 = t2 := data_inj ht
    have hv' : v1 = v2 := data_inj hv
    rw [ht', hv']

/-- Exception event whose type is the word `"Message"` (colliding by design
with the message-event variant). -/
def wEvtMsgExc : SentryEvent := ⟨some [⟨some "Message", some "Hi there"⟩], none, none, 0⟩

/-- Message event normalizing to the same pair as `wEvtMsgExc`. -/
def wEvtMsg : SentryEvent := ⟨none, some "hi  THERE", none, 0⟩

/-- Exception event with a distinct colon-free pair. -/
def wEvtErr : SentryEvent := ⟨some [⟨some "Error", some "x"⟩], none, none, 0⟩

/-- Witness for C5 (amended): equal pairs across variants collide, distinct
colon-free pairs do not. -/
theorem fingerprint_pair_amended_witness :
    getErrorFingerprint wEvtMsgExc = getErrorFingerprint wEvtMsg ∧
    getErrorFingerprint wEvtMsgExc ≠ getErrorFingerprint wEvtErr :=
  ⟨(fingerprint_pair_amended wEvtMsgExc wEvtMsg ("message", "hi_there")
      ("message", "hi_there") (by decide) (by decide)).1 rfl,
   (fingerprint_pair_amended wEvtMsgExc wEvtErr ("message", "hi_there")
      ("error", "x") (by decide) (by decide)).2 (by decide) (by decide) (by decide)⟩

/-! ### The event processor -/

/-- An event whose fingerprint is not `"unknown"` always passes the
processor's non-error-event guard. -/
theorem guard_false_of_fp_ne {e : SentryEvent}
    (h : getErrorFingerprint e ≠ "unknown") :
    (e.exceptionValues.isNone && !msgTruthy e.message) = false := by
  rcases he : e.exceptionValues with _ | l
  · rcases hm : e.message with _ | m
    · exact absurd (by simp [getErrorFingerprint, he, hm]) h
    · by_cases hm0 : m = ""
      · exact absurd (by simp [getErrorFingerprint, he, hm, hm0]) h
      · simp [msgTruthy, hm, hm0]
  · simp [he]

/-- On an event whose fingerprint is not `"unknown"`, the processor runs the
counting branch: it updates the store through `shouldReportError` and either
drops or annotates according to the decision. -/
theorem processor_main {d : JSDate} {st : Store} {e : SentryEvent}
    (hfp : getErrorFingerprint e ≠ "unknown") :
    dedupeEventProcessor d st e =
      (if (shouldReportError d (getErrorFingerprint e) st).1 then
          some { e with extra := some (setProp (e.extra.getD []) "deduplication"
            (.dedup ⟨d.isoDay, getErrorFingerprint e,
              getErrorCount d (getErrorFingerprint e)
                (shouldReportError d (getErrorFingerprint e) st).2,
              nextReportAt (getErrorCount d (getErrorFingerprint e)
                (shouldReportError d (getErrorFingerprint e) st).2),
              "per_error_deduplication"⟩)) }
        else none,
       (shouldReportError d (getErrorFingerprint e) st).2) := by
  unfold dedupeEventProcessor
  rw [guard_false_of_fp_ne hfp]
  simp only [Bool.false_eq_true, if_false, if_neg hfp]
  by_cases hr : (shouldReportError d (getErrorFingerprint e) st).1 = true
  · simp [hr]
  · simp only [Bool.not_eq_true] at hr
    simp [hr]

theorem lookup_setProp_self :
    ∀ (l : List (String × ExtraVal)) (k : String) (v : ExtraVal),
      (setProp l k v).lookup k = some v := by
  intro l k v
  induction l with
  | nil => exact lookup_cons_self
  | cons p ps ih =>
    cases p with
    | mk a b =>
      by_cases hp : a = k
      · simp only [setProp, hp, if_true]
        exact lookup_cons_self
      · simp only [setProp, if_neg hp]
        rw [lookup_cons_ne (Ne.symm hp)]
        exact ih

theorem lookup_setProp_ne :
    ∀ (l : List (String × ExtraVal)) (k k' : String) (v : ExtraVal), k' ≠ k →
      (setProp l k v).lookup k' = l.lookup k' := by
  intro l k k' v hk
  induction l with
  | nil => exact lookup_cons_ne hk
  | cons p ps ih =>
    cases p with
    | mk a b =>
      by_cases hp : a = k
      · simp only [setProp, hp, if_true]
        rw [lookup_cons_ne hk, lookup_cons_ne (hp ▸ hk)]
      · simp only [setProp, if_neg hp]
        by_cases hk' : k' = a
        · subst hk'
          rw [lookup_cons_self, lookup_cons_self]
        · rw [lookup_cons_ne hk', lookup_cons_ne hk', ih]

/-- C8: an exception entry whose type and message are both absent or empty
fingerprints to `":"`, not to the sentinel `"unknown"`; such events are
counted through `shouldForward` under the shared `":"` bucket and are
dropped when the decision says so, instead of being fail-open forwarded. -/
theorem empty_exception_bucket (d : JSDate) (st : Store) (e : SentryEvent)
    (exc : SentryException) (tl : List SentryException)
    (he : e.exceptionValues = some (exc :: tl))
    (ht : exc.type = none ∨ exc.type = some "")
    (hv : exc.value = none ∨ exc.value = some "") :
    getErrorFingerprint e = ":" ∧
    (dedupeEventProcessor d st e).2 = (shouldReportError d ":" st).2 ∧
    ((shouldReportError d ":" st).1 = false → (dedupeEventProcessor d st e).1 = none) := by
  have ht' : exc.type.getD "" = "" := by rcases ht with h | h <;> simp [h]
  have hv' : exc.value.getD "" = "" := by rcases hv with h | h <;> simp [h]
  have hfp : getErrorFingerprint e = ":" := by
    rw [fingerprint_exception he, ht', hv']
    decide
  have hne : getErrorFingerprint e ≠ "unknown" := by
    rw [hfp]; decide
  refine ⟨hfp, ?_, ?_⟩
  · rw [processor_main hne, hfp]
  · intro hdec
    rw [processor_main hne, hfp]
    simp [hdec]

/-- An event carrying one exception entry with empty type and value. -/
def blankExcEvent : SentryEvent := ⟨some [⟨none, some ""⟩], none, none, 7⟩

/-- Witness for C8 at a concrete blank exception event. -/
theorem empty_exception_bucket_witness :
    getErrorFingerprint blankExcEvent = ":" ∧
    (dedupeEventProcessor sampleDate [] blankExcEvent).2 =
      (shouldReportError sampleDate ":" []).2 ∧
    ((shouldReportError sampleDate ":" []).1 = false →
      (dedupeEventProcessor sampleDate [] blankExcEvent).1 = none) :=
  empty_exception_bucket sampleDate [] blankExcEvent ⟨none, some ""⟩ []
    rfl (Or.inl rfl) (Or.inr rfl)

/-- C9: when the processor forwards an event with a known fingerprint, every
event field except `extra` is unchanged, and within `extra` only the
`"deduplication"` entry is added or overwritten — all other entries keep
their values. -/
theorem forwarded_frame (d : JSDate) (st : Store) (e : SentryEvent)
    (hfp : getErrorFingerprint e ≠ "unknown")
    (hdec : (shouldReportError d (getErrorFingerprint e) st).1 = true) :
    ∃ e', (dedupeEventProcessor d st e).1 = some e' ∧
      e'.exceptionValues = e.exceptionValues ∧
      e'.message = e.message ∧
      e'.rest = e.rest ∧
      ∃ l m, e'.extra = some l ∧
        l.lookup "deduplication" = some (ExtraVal.dedup m) ∧
        ∀ k, k ≠ "deduplication" → l.lookup k = (e.extra.getD []).lookup k := by
  refine ⟨{ e with extra := some (setProp (e.extra.getD []) "deduplication"
      (.dedup ⟨d.isoDay, getErrorFingerprint e,
        getErrorCount d (getErrorFingerprint e)
          (shouldReportError d (getErrorFingerprint e) st).2,
        nextReportAt (getErrorCount d (getErrorFingerprint e)
          (shouldReportError d (getErrorFingerprint e) st).2),
        "per_error_deduplication"⟩)) }, ?_, rfl, rfl, rfl, ?_⟩
  · rw [processor_main hfp]
    simp [hdec]
  · exact ⟨_, _, rfl, lookup_setProp_self _ _ _,
      fun k hk => lookup_setProp_ne _ _ _ _ hk⟩

/-- An event with a fingerprint `"error:x"`, a pre-existing `extra` map and
a stale `deduplication` entry. -/
def richEvent : SentryEvent :=
  ⟨some [⟨some "Error", some "x"⟩], none,
    some [("foo", .raw 7), ("deduplication", .raw 3)], 11⟩

/-- Witness for C9 at a concrete forwarded event carrying prior extras. -/
theorem forwarded_frame_witness :
    ∃ e', (dedupeEventProcessor sampleDate [] richEvent).1 = some e' ∧
      e'.exceptionValues = richEvent.exceptionValues ∧
      e'.message = richEvent.message ∧
      e'.rest = richEvent.rest ∧
      ∃ l m, e'.extra = some l ∧
        l.lookup "deduplication" = some (ExtraVal.dedup m) ∧
        ∀ k, k ≠ "deduplication" →
          l.lookup k = (richEvent.extra.getD []).lookup k :=
  forwarded_frame sampleDate [] richEvent (by decide) (by decide)

/-- C10: starting from a numeric (or absent) stored count `i`, one
`shouldForward` call leaves the decimal string of `c = i + 1` in the store
under today's key, an immediate re-read returns exactly `c`, and the
`deduplication.count` the processor writes into a forwarded event equals
that same `c` used for the decision. -/
theorem count_roundtrip_metadata (d : JSDate) (fp : String) (st : Store) (i : Int)
    (h : getErrorCount d fp st = .num i) :
    ((shouldReportError d fp st).2).lookup (getDailyKey d fp) =
      some (jsToString (.num (i + 1))) ∧
    getErrorCount d fp (shouldReportError d fp st).2 = .num (i + 1) ∧
    (∀ e, getErrorFingerprint e = fp → fp ≠ "unknown" →
      ∀ e', (dedupeEventProcessor d st e).1 = some e' →
      ∀ l, e'.extra = some l →
      ∀ m, l.lookup "deduplication" = some (ExtraVal.dedup m) →
        m.count = .num (i + 1)) := by
  refine ⟨?_, getErrorCount_after h, ?_⟩
  · rw [congrArg Prod.snd (shouldReportError_num h)]
    exact lookup_cons_self
  · intro e hefp hfpu e' he' l hl m hm
    have hne : getErrorFingerprint e ≠ "unknown" := by rw [hefp]; exact hfpu
    rw [processor_main hne] at he'
    by_cases hr : (shouldReportError d (getErrorFingerprint e) st).1 = true
    · rw [if_pos hr] at he'
      simp only [Option.some.injEq] at he'
      rw [← he'] at hl
      simp only [Option.some.injEq] at hl
      rw [← hl, lookup_setProp_self] at hm
      simp only [Option.some.injEq, ExtraVal.dedup.injEq] at hm
      rw [← hm]
      show getErrorCount d (getErrorFingerprint e)
        (shouldReportError d (getErrorFingerprint e) st).2 = JSNum.num (i + 1)
      rw [hefp]
      exact getErrorCount_after h
    · rw [if_neg hr] at he'
      exact absurd he' (by simp)

/-- The event the processor produces from `wEvtErr` on an empty store. -/
def wEvtErrAnnotated : SentryEvent :=
  ⟨some [⟨some "Error", some "x"⟩], none,
    some [("deduplication", .dedup ⟨"2025-10-14", "error:x", .num 1, .num 11,
      "per_error_deduplication"⟩)], 0⟩

/-- Witness for C10: the annotated count equals the stored and re-read
count 1 at a concrete event and empty store. -/
theorem count_roundtrip_metadata_witness :
    ((shouldReportError sampleDate "error:x" []).2).lookup
        (getDailyKey sampleDate "error:x") = some (jsToString (.num (0 + 1))) ∧
    getErrorCount sampleDate "error:x" (shouldReportError sampleDate "error:x" []).2 =
      .num (0 + 1) ∧
    (⟨"2025-10-14", "error:x", .num 1, .num 11,
      "per_error_deduplication"⟩ : DedupMeta).count = .num (0 + 1) := by
  obtain ⟨h1, h2, h3⟩ := count_roundtrip_metadata sampleDate "error:x" [] 0 (by decide)
  refine ⟨h1, h2, ?_⟩
  exact h3 wEvtErr (by decide) (by decide) wEvtErrAnnotated (by decide)
    _ rfl _ (by decide)

end SentryDedup
